import Mathlib

/-!
Verification of the MongoPortable in-memory document store
(Collection.js and MongoPortable.js) against its specification.

The JavaScript sources are shallowly embedded: JS values become the
inductive `MP.Value`; JS objects become insertion-ordered association
lists; in-place mutation becomes explicit state passing; thrown errors
become `Except MP.UErr`.  Identifier generation (`new ObjectId()`) is
non-deterministic at the JS level, so the fresh identifier string and the
generation timestamp are passed in as oracle parameters.
-/

namespace MP

/-- A JavaScript value as stored in a document.  `undef` is the JS
`undefined` (distinct from `null`); `oid` is an `ObjectId`, carried as
its string form; numbers are modelled as integers (the claims under
study never depend on non-integer arithmetic). -/
inductive Value where
  | undef : Value
  | null : Value
  | bool : Bool → Value
  | num : Int → Value
  | str : String → Value
  | oid : String → Value
  | arr : List Value → Value
  | obj : List (String × Value) → Value

mutual

/-- Structural equality on `Value` (decidable-equality workhorse). -/
def Value.beq : Value → Value → Bool
  | .undef, .undef => true
  | .null, .null => true
  | .bool a, .bool b => a == b
  | .num a, .num b => a == b
  | .str a, .str b => a == b
  | .oid a, .oid b => a == b
  | .arr a, .arr b => Value.beqList a b
  | .obj a, .obj b => Value.beqFields a b
  | _, _ => false

/-- Structural equality on lists of values. -/
def Value.beqList : List Value → List Value → Bool
  | [], [] => true
  | x :: xs, y :: ys => Value.beq x y && Value.beqList xs ys
  | _, _ => false

/-- Structural equality on field lists. -/
def Value.beqFields : List (String × Value) → List (String × Value) → Bool
  | [], [] => true
  | (k, v) :: xs, (l, w) :: ys => k == l && Value.beq v w && Value.beqFields xs ys
  | _, _ => false

end

theorem Value.beq_iff : ∀ a b : Value, Value.beq a b = true ↔ a = b := by
  apply Value.beq.induct (fun a b => Value.beq a b = true ↔ a = b)
    (fun a b => Value.beqFields a b = true ↔ a = b)
    (fun a b => Value.beqList a b = true ↔ a = b)
  · simp [Value.beq]
  · simp [Value.beq]
  · intro a b; simp [Value.beq]
  · intro a b; simp [Value.beq]
  · intro a b; simp [Value.beq]
  · intro a b; simp [Value.beq]
  · intro a b ih; simp [Value.beq, ih]
  · intro a b ih; simp [Value.beq, ih]
  · intro t x h1 h2 h3 h4 h5 h6 h7 h8
    cases t <;> cases x <;> simp [Value.beq] <;> simp_all
  · simp [Value.beqList]
  · intro x xs y ys ih1 ih2; simp [Value.beqList, ih1, ih2]
  · intro t x h1 h2
    cases t with
    | nil =>
        cases x with
        | nil => exact (h1 rfl rfl).elim
        | cons y ys => simp [Value.beqList]
    | cons a as =>
        cases x with
        | nil => simp [Value.beqList]
        | cons y ys => exact (h2 a as y ys rfl rfl).elim
  · simp [Value.beqFields]
  · intro k v xs l w ys ih1 ih2; simp [Value.beqFields, ih1, ih2]
  · intro t x h1 h2
    cases t with
    | nil =>
        cases x with
        | nil => exact (h1 rfl rfl).elim
        | cons b bs => simp [Value.beqFields]
    | cons a as =>
        obtain ⟨k, v⟩ := a
        cases x with
        | nil => simp [Value.beqFields]
        | cons b bs =>
            obtain ⟨l, w⟩ := b
            exact (h2 k v as l w bs rfl rfl).elim

instance : DecidableEq Value := fun a b =>
  decidable_of_iff _ (Value.beq_iff a b)

/-- A document: a JS object, i.e. an insertion-ordered key/value list.
JS objects cannot hold duplicate keys; lookups read the first
occurrence and writes replace the first occurrence, so the embedding is
faithful on all states reachable from JS objects. -/
abbrev Doc := List (String × Value)

/-- Read a field of a JS object (first occurrence). -/
def getField : Doc → String → Option Value
  | [], _ => none
  | (k', v') :: rest, k => if k' = k then some v' else getField rest k

/-- Write a field of a JS object: replace in place if the key exists,
append otherwise (JS property-assignment order semantics). -/
def setField : Doc → String → Value → Doc
  | [], k, v => [(k, v)]
  | (k', v') :: rest, k, v =>
      if k' = k then (k', v) :: rest else (k', v') :: setField rest k v

/-- Delete a field of a JS object (the JS `delete` operator). -/
def delField : Doc → String → Doc
  | [], _ => []
  | (k', v') :: rest, k => if k' = k then rest else (k', v') :: delField rest k

/-- JS `key in obj` for plain objects. -/
def hasField (d : Doc) (k : String) : Bool :=
  (getField d k).isSome

theorem getField_setField_self (d : Doc) (k : String) (v : Value) :
    getField (setField d k v) k = some v := by
  induction d with
  | nil => simp [setField, getField]
  | cons p rest ih =>
      by_cases h : p.1 = k
      · simp [setField, getField, h]
      · simp [setField, getField, h, ih]

theorem getField_setField_ne (d : Doc) (k k' : String) (v : Value) (h : k ≠ k') :
    getField (setField d k v) k' = getField d k' := by
  induction d with
  | nil => simp [setField, getField, h]
  | cons p rest ih =>
      by_cases hk : p.1 = k
      · simp [setField, getField, hk, h]
      · by_cases hk' : p.1 = k'
        · simp [setField, getField, hk, hk', Ne.symm h]
        · simp [setField, getField, hk, hk', ih]

theorem setField_setField_self (d : Doc) (k : String) (v w : Value) :
    setField (setField d k v) k w = setField d k w := by
  induction d with
  | nil => simp [setField]
  | cons p rest ih =>
      by_cases h : p.1 = k
      · simp [setField, h]
      · simp [setField, h, ih]

theorem setField_getField_self (d : Doc) (k : String) (v : Value)
    (h : getField d k = some v) : setField d k v = d := by
  induction d with
  | nil => simp [getField] at h
  | cons p rest ih =>
      by_cases hk : p.1 = k
      · simp [getField, hk] at h
        cases p with
        | mk k0 v0 => simp_all [setField]
      · simp [getField, hk] at h
        simp [setField, hk, ih h]

/-- Modelled from the spec: `Selector._f._equal` (Selector.js is not
among the provided sources).  The spec calls it a deep-equal comparison
performing structural recursion, which for this value model is
structural equality. -/
def valueEq (a b : Value) : Bool :=
  Value.beq a b

theorem valueEq_refl (a : Value) : valueEq a a = true := by
  simp [valueEq, Value.beq_iff]

/-! ### String and key-order helpers -/

/-- The JS test `key.substr(0, 1) === '$'`: the first character is `$`. -/
def startsWithDollar (k : String) : Bool :=
  match k.data with
  | '$' :: _ => true
  | _ => false

/-- The JS test `/\./g.test(key)`: some character is a dot. -/
def containsDot (k : String) : Bool :=
  k.data.any (fun c => c == '.')

/-- The JS `keypath.split('.')`, keeping empty pieces. -/
def splitDotAux : List Char → List Char → List String
  | [], acc => [String.mk acc.reverse]
  | c :: rest, acc =>
      if c = '.' then String.mk acc.reverse :: splitDotAux rest []
      else splitDotAux rest (c :: acc)

/-- Split a key path on dots. -/
def splitDot (s : String) : List String :=
  splitDotAux s.data []

/-- The JS test `/^[0-9]+$/.test(s)`. -/
def isDigitString (s : String) : Bool :=
  !s.data.isEmpty && s.data.all Char.isDigit

/-- Numeric value of an all-digit string (`_.toNumber` on such input). -/
def digitsToNat (s : String) : Nat :=
  s.data.foldl (fun acc c => acc * 10 + (c.toNat - 48)) 0

/-- Whether `s` is a canonical JS array-index property name. -/
def isArrayIndexKey (s : String) : Bool :=
  isDigitString s && (s == "0" || s.data.head? != some '0') &&
    digitsToNat s < 4294967295

/-- The JS test `p in arr` for an array: index properties below the
length, plus `length` itself. -/
def arrHasProp (xs : List Value) (p : String) : Bool :=
  p == "length" || (isArrayIndexKey p && digitsToNat p < xs.length)

/-- Drop duplicate keys, keeping first occurrences (a JS object cannot
hold duplicates, so enumeration sees each key once). -/
def dedupKeysAux : List String → List String → List String
  | [], _ => []
  | k :: rest, seen =>
      if seen.contains k then dedupKeysAux rest seen
      else k :: dedupKeysAux rest (k :: seen)

/-- Insert into an ascending-by-numeric-value list of index keys. -/
def insertIdxSorted (k : String) : List String → List String
  | [] => [k]
  | x :: xs =>
      if digitsToNat k ≤ digitsToNat x then k :: x :: xs
      else x :: insertIdxSorted k xs

/-- JS `for (key in obj)` enumeration order: integer-like keys in
ascending numeric order first, then the remaining string keys in
insertion order. -/
def forInKeys (d : Doc) : List String :=
  let ks := dedupKeysAux (d.map Prod.fst) []
  (ks.filter isArrayIndexKey).foldr insertIdxSorted [] ++
    ks.filter (fun k => !isArrayIndexKey k)

/-! ### Path resolution (`Collection._findModTarget`) -/

/-- One addressing step inside a document tree: object key or array
index.  The resolver rewrites the last key part to an index when the
enclosing container is an array. -/
inductive Seg where
  | key : String → Seg
  | idx : Nat → Seg
deriving DecidableEq

/-- What `Collection._findModTarget` handed back: JS `undefined`
(skip), JS `null` (forbidden array on the path), or a reference to the
target container, here rendered as the path of the returned node from
the root plus the (possibly rewritten) final key part. -/
inductive FmtOut where
  | undef : FmtOut
  | nullT : FmtOut
  | found : List Seg → Seg → FmtOut
deriving DecidableEq

/-- The errors thrown by Collection.js, one constructor per distinct
`throw` message:
`typeError` — a host JS TypeError (e.g. `in` applied to a primitive,
  string method called on a non-string, property write on a primitive);
`allUpdateFieldsMustBeOperator` — "All update fields must be an update operator";
`noMultiUpdateWithoutOperators` — "You can not update several documents
  when no update operators are included";
`invalidModifier k` — "Invalid modifier specified: k";
`incNonNumberArg` — "Modifier $inc allowed for numbers only";
`incNonNumberTarget` — "Cannot apply $inc modifier to non-number";
`pushNonArray` — "Cannot apply $push modifier to non-array";
`pushAllNonArray` — "Cannot apply $pushAll modifier to non-array";
`pushPullAllArgNotArray` — "Modifier $pushAll/pullAll allowed for arrays only";
`addToSetNonArray` — "Cannot apply $addToSet modifier to non-array";
`popNonArray` — "Cannot apply $pop modifier to non-array";
`pullNonArray` — "Cannot apply $pull/pullAll modifier to non-array";
`renameSourceMustDiffer` — "$rename source must differ from target";
`renameSourceInvalid` — "$rename source field invalid";
`renameTargetNotString` — "$rename target must be a string";
`renameTargetInvalid` — "$rename target field invalid";
`cantAppendToArray p` — "can't append to array using string field name [p]";
`cantModifyListValue p` — "can't modify field 'p' of list value ...";
`bitUnsupported` — "$bit is not supported". -/
inductive UErr where
  | typeError : UErr
  | allUpdateFieldsMustBeOperator : UErr
  | noMultiUpdateWithoutOperators : UErr
  | invalidModifier : String → UErr
  | incNonNumberArg : UErr
  | incNonNumberTarget : UErr
  | pushNonArray : UErr
  | pushAllNonArray : UErr
  | pushPullAllArgNotArray : UErr
  | addToSetNonArray : UErr
  | popNonArray : UErr
  | pullNonArray : UErr
  | renameSourceMustDiffer : UErr
  | renameSourceInvalid : UErr
  | renameTargetNotString : UErr
  | renameTargetInvalid : UErr
  | cantAppendToArray : String → UErr
  | cantModifyListValue : String → UErr
  | bitUnsupported : UErr
deriving DecidableEq

instance {ε α : Type _} [DecidableEq ε] [DecidableEq α] : DecidableEq (Except ε α) :=
  fun a b =>
    match a, b with
    | .ok x, .ok y => decidable_of_iff (x = y) (by simp)
    | .error x, .error y => decidable_of_iff (x = y) (by simp)
    | .ok _, .error _ => isFalse (by simp)
    | .error _, .ok _ => isFalse (by simp)

/-- JS `typeof v === "object"` (true for objects, arrays and `null`). -/
def isJsObjectType : Value → Bool
  | .obj _ => true
  | .arr _ => true
  | .null => true
  | _ => false

/-- Prefix a segment onto the parent path of a `found` result. -/
def consPath (s : Seg) : FmtOut → FmtOut
  | .found pp lastSeg => .found (s :: pp) lastSeg
  | o => o

/-- `Collection._findModTarget(doc, keyparts, no_create, forbid_array)`.
In the source it mutates `doc` in place and returns a reference to the
parent of the last key part; here it returns the (possibly extended)
root together with a `FmtOut` describing the returned reference.  The
empty key-part list is unreachable in the source ("notreached"); it is
mapped to `undef`. -/
def findModTarget : Value → List String → Bool → Bool → Except UErr (Value × FmtOut)
  | node, [], _, _ => .ok (node, .undef)
  | node, p :: rest, nc, fa =>
    match node with
    | .obj fs =>
        -- no_create && !(keypart in doc) → return undefined
        if nc && !(hasField fs p) then .ok (.obj fs, .undef)
        else if rest.isEmpty then .ok (.obj fs, .found [] (.key p))
        else
          -- intermediate object step: create `{}` on demand
          let fs1 := if hasField fs p then fs else setField fs p (.obj [])
          match findModTarget ((getField fs1 p).getD .undef) rest nc fa with
          | .error e => .error e
          | .ok (child2, out) => .ok (.obj (setField fs1 p child2), consPath (.key p) out)
    | .arr xs =>
        -- typeof array is "object", so no_create tests `keypart in doc`
        if nc && !(arrHasProp xs p) then .ok (.arr xs, .undef)
        else if fa then .ok (.arr xs, .nullT)
        else if !(isDigitString p) then .error (.cantAppendToArray p)
        else
          let k := digitsToNat p
          let padded := xs ++ List.replicate (k - xs.length) Value.null
          if rest.isEmpty then .ok (.arr padded, .found [] (.idx k))
          else
            let padded2 := if padded.length = k then padded ++ [Value.obj []] else padded
            let child := padded2.getD k Value.undef
            if isJsObjectType child then
              match findModTarget child rest nc fa with
              | .error e => .error e
              | .ok (child2, out) => .ok (.arr (padded2.set k child2), consPath (.idx k) out)
            else .error (.cantModifyListValue (rest.headD ""))
    | .null =>
        -- typeof null is "object": `keypart in null` throws
        if nc then .error .typeError
        else if rest.isEmpty then .ok (.null, .found [] (.key p))
        else .error .typeError
    | other =>
        -- a primitive or undefined: typeof is not "object"
        if nc then .ok (other, .undef)
        else if rest.isEmpty then .ok (other, .found [] (.key p))
        else .error .typeError   -- `keypart in <primitive>` throws

/-- Read the node at a path produced by `findModTarget`. -/
def getAtPath : Value → List Seg → Option Value
  | v, [] => some v
  | .obj fs, .key k :: rest =>
      match getField fs k with
      | some c => getAtPath c rest
      | none => none
  | .arr xs, .idx i :: rest =>
      match xs.get? i with
      | some c => getAtPath c rest
      | none => none
  | _, _ => none

/-- Replace the node at a path produced by `findModTarget` (no-op on a
dangling path, which the resolver never produces). -/
def setAtPath : Value → List Seg → Value → Value
  | _, [], v => v
  | .obj fs, .key k :: rest, v =>
      match getField fs k with
      | some c => .obj (setField fs k (setAtPath c rest v))
      | none => .obj fs
  | .arr xs, .idx i :: rest, v =>
      match xs.get? i with
      | some c => .arr (xs.set i (setAtPath c rest v))
      | none => .arr xs
  | o, _, _ => o

/-! ### Container primitives used by the modifiers -/

/-- Property read `target[field]`, `none` when absent. -/
def contGet (p : Value) (s : Seg) : Option Value :=
  match p, s with
  | .obj fs, .key k => getField fs k
  | .arr xs, .idx i => xs.get? i
  | .arr xs, .key k => if k = "length" then some (.num xs.length) else none
  | _, _ => none

/-- Property read `target[field]` with JS semantics: absent reads as
`undefined`. -/
def jsGet (p : Value) (s : Seg) : Value :=
  (contGet p s).getD Value.undef

/-- Field read on an object value, `undefined` otherwise (`arg["$each"]`). -/
def jsGetField (v : Value) (k : String) : Value :=
  match v with
  | .obj fs => (getField fs k).getD Value.undef
  | _ => Value.undef

/-- The JS test `field in target` for the containers the walk returns. -/
def contHas (p : Value) (s : Seg) : Bool :=
  match p, s with
  | .obj fs, .key k => hasField fs k
  | .arr xs, .idx i => i < xs.length
  | .arr xs, .key k => arrHasProp xs k
  | _, _ => false

/-- `target` is an object or array (`in`/property-write legal). -/
def isContainer : Value → Bool
  | .obj _ => true
  | .arr _ => true
  | _ => false

/-- Property write `target[field] = v`.  Writing past an array's end
creates holes as JS does; writing on a primitive throws (the sources
are compiled to strict mode). -/
def jsWrite (p : Value) (s : Seg) (v : Value) : Except UErr Value :=
  match p, s with
  | .obj fs, .key k => .ok (.obj (setField fs k v))
  | .arr xs, .idx i =>
      if i < xs.length then .ok (.arr (xs.set i v))
      else .ok (.arr (xs ++ List.replicate (i - xs.length) Value.undef ++ [v]))
  | .arr xs, .key _ => .ok (.arr xs)   -- unreachable from the walk; inert
  | _, _ => .error .typeError

/-- The JS `delete target[field]` (leaves a hole in an array). -/
def contDel (p : Value) (s : Seg) : Value :=
  match p, s with
  | .obj fs, .key k => .obj (delField fs k)
  | .arr xs, .idx i => .arr (xs.set i Value.undef)
  | v, _ => v

/-! ### The update modifiers (`_modifiers` in Collection.js) -/

/-- `$inc`: numeric addition, create-on-absent, fail on a non-numeric
argument or target.  `field in target` on a primitive throws. -/
def incMod (target : Value) (s : Seg) (arg : Value) : Except UErr Value :=
  match arg with
  | .num n =>
      if isContainer target then
        if contHas target s then
          match jsGet target s with
          | .num m => jsWrite target s (.num (m + n))
          | _ => .error .incNonNumberTarget
        else jsWrite target s (.num n)
      else .error .typeError
  | _ => .error .incNonNumberArg

/-- `$set`: `target[field] = _.cloneDeep(arg)` (cloning is the identity
in a pure embedding). -/
def setMod (target : Value) (s : Seg) (arg : Value) : Except UErr Value :=
  jsWrite target s arg

/-- `$unset`: null out an array slot that exists, delete an object key. -/
def unsetMod (target : Value) (s : Seg) : Value :=
  match target, s with
  | .arr xs, .idx i => if i < xs.length then .arr (xs.set i Value.null) else .arr xs
  | .arr xs, .key _ => .arr xs
  | t, _ => contDel t s

/-- `$push`: append; create a singleton array when the slot reads as
`undefined`; fail on a non-array. -/
def pushMod (target : Value) (s : Seg) (arg : Value) : Except UErr Value :=
  match jsGet target s with
  | .undef => jsWrite target s (.arr [arg])
  | .arr xs => jsWrite target s (.arr (xs ++ [arg]))
  | _ => .error .pushNonArray

/-- `$pushAll`: argument must be an array; append element-wise. -/
def pushAllMod (target : Value) (s : Seg) (arg : Value) : Except UErr Value :=
  match arg with
  | .arr ys =>
      match jsGet target s with
      | .undef => jsWrite target s (.arr ys)
      | .arr xs => jsWrite target s (.arr (xs ++ ys))
      | _ => .error .pushAllNonArray
  | _ => .error .pushPullAllArgNotArray

/-- lodash `_.forEach` iteration values: array elements, or an
object's values in key-enumeration order, nothing for primitives. -/
def eachValues (arg : Value) : List Value :=
  match arg with
  | .arr ys => ys
  | .obj fs => (forInKeys fs).filterMap (fun k => getField fs k)
  | _ => []

/-- `$addToSet` recognizes the `$each` wrapper by examining only the
FIRST enumerated key of an object argument (the source breaks out of
its key loop after one iteration). -/
def isEachWrapper (arg : Value) : Bool :=
  match arg with
  | .obj fs => (forInKeys fs).head? == some "$each"
  | _ => false

/-- Append `v` unless a deep-equal element is already present. -/
def addUnlessPresent (xs : List Value) (v : Value) : List Value :=
  if xs.any (fun e => valueEq v e) then xs else xs ++ [v]

/-- `$addToSet`: create a singleton holding the raw argument when the
slot reads as `undefined` (even an `$each` wrapper is stored
literally); otherwise add each value that is not yet present. -/
def addToSetMod (target : Value) (s : Seg) (arg : Value) : Except UErr Value :=
  match jsGet target s with
  | .undef => jsWrite target s (.arr [arg])
  | .arr xs =>
      let values := if isEachWrapper arg then eachValues (jsGetField arg "$each") else [arg]
      jsWrite target s (.arr (values.foldl addUnlessPresent xs))
  | _ => .error .addToSetNonArray

/-- `$pop`: drop the first element when the argument is a negative
number, else the last; no-op on an absent slot; fail on a non-array. -/
def popMod (target : Value) (s : Seg) (arg : Value) : Except UErr Value :=
  match jsGet target s with
  | .undef => .ok target
  | .arr xs =>
      match arg with
      | .num n =>
          if n < 0 then jsWrite target s (.arr (xs.drop 1))
          else jsWrite target s (.arr xs.dropLast)
      | _ => jsWrite target s (.arr xs.dropLast)
  | _ => .error .popNonArray

/-- `$pull`: when the argument is a non-array object (or `null`, whose
JS typeof is "object") it is compiled as a sub-selector `sel`; else
elements deep-equal to the argument are removed. -/
def pullMod (sel : Value → Value → Bool) (target : Value) (s : Seg) (arg : Value) :
    Except UErr Value :=
  match jsGet target s with
  | .undef => .ok target
  | .arr xs =>
      let out := match arg with
        | .obj fs => xs.filter (fun e => !sel (.obj fs) e)
        | .null => xs.filter (fun e => !sel .null e)
        | _ => xs.filter (fun e => !valueEq e arg)
      jsWrite target s (.arr out)
  | _ => .error .pullNonArray

/-- `$pullAll`: argument must be an array; remove elements deep-equal
to any listed value. -/
def pullAllMod (target : Value) (s : Seg) (arg : Value) : Except UErr Value :=
  match arg with
  | .arr ys =>
      match jsGet target s with
      | .undef => .ok target
      | .arr xs => jsWrite target s (.arr (xs.filter (fun e => !ys.any (fun a => valueEq e a))))
      | _ => .error .pullNonArray
  | _ => .error .pushPullAllArgNotArray

/-- `Collection._noCreateModifiers`. -/
def noCreateModifier (m : String) : Bool :=
  m == "$unset" || m == "$pop" || m == "$rename" || m == "$pull" || m == "$pullAll"

/-- The keys of the `_modifiers` table. -/
def knownModifier (m : String) : Bool :=
  m == "$inc" || m == "$set" || m == "$unset" || m == "$push" || m == "$pushAll" ||
    m == "$addToSet" || m == "$pop" || m == "$pull" || m == "$pullAll" ||
    m == "$rename" || m == "$bit"

/-- Dispatch a non-`$rename` modifier on its found target. -/
def dispatchMod (sel : Value → Value → Bool) (m : String) (target : Value) (s : Seg)
    (arg : Value) : Except UErr Value :=
  if m == "$inc" then incMod target s arg
  else if m == "$set" then setMod target s arg
  else if m == "$unset" then .ok (unsetMod target s)
  else if m == "$push" then pushMod target s arg
  else if m == "$pushAll" then pushAllMod target s arg
  else if m == "$addToSet" then addToSetMod target s arg
  else if m == "$pop" then popMod target s arg
  else if m == "$pull" then pullMod sel target s arg
  else if m == "$pullAll" then pullAllMod target s arg
  else .error .bitUnsupported   -- "$bit": explicitly unsupported

/-- `$rename` on a found target: source/target checks, delete the
source slot, re-resolve the target path with `forbid_array`, write. -/
def renameApply (root : Value) (pp : List Seg) (s : Seg) (arg : Value) (kp : String) :
    Except UErr Value :=
  let target := (getAtPath root pp).getD Value.undef
  if target == .undef then .ok root
  else if arg == .str kp then .error .renameSourceMustDiffer
  else if target == .null then .error .renameSourceInvalid
  else
    match arg with
    | .str newPath =>
        let v := jsGet target s
        let root2 := setAtPath root pp (contDel target s)
        match findModTarget root2 (splitDot newPath) false true with
        | .error e => .error e
        | .ok (_, .nullT) => .error .renameTargetInvalid
        | .ok (root3, .undef) => .ok root3   -- unreachable: no_create is false
        | .ok (root3, .found pp2 s2) =>
            match jsWrite ((getAtPath root3 pp2).getD .undef) s2 v with
            | .error e => .error e
            | .ok parent2 => .ok (setAtPath root3 pp2 parent2)
    | _ => .error .renameTargetNotString

/-- One keypath clause of a modifier: resolve the target with the
modifier's `no_create`/`forbid_array` policy, then act on it. -/
def applyModClause (sel : Value → Value → Bool) (m : String) (root : Value) (kp : String)
    (arg : Value) : Except UErr Value :=
  match findModTarget root (splitDot kp) (noCreateModifier m) (m == "$rename") with
  | .error e => .error e
  | .ok (root2, .undef) => .ok root2   -- all no-create modifiers return on an undefined target
  | .ok (_, .nullT) =>
      -- only "$rename" sets forbid_array, so only it can see a null target
      if arg == .str kp then .error .renameSourceMustDiffer
      else .error .renameSourceInvalid
  | .ok (root2, .found pp s) =>
      if m == "$rename" then renameApply root2 pp s arg kp
      else
        match dispatchMod sel m ((getAtPath root2 pp).getD .undef) s arg with
        | .error e => .error e
        | .ok parent2 => .ok (setAtPath root2 pp parent2)

/-- JS `for (keypath in val)` of `_applyModifier`: an object's fields in
enumeration order; an array's elements keyed by their indices; nothing
for a primitive. -/
def clausesOf (val : Value) : List (String × Value) :=
  match val with
  | .obj fs => (forInKeys fs).filterMap (fun k => (getField fs k).map (fun v => (k, v)))
  | .arr xs => xs.enum.map (fun p => (toString p.1, p.2))
  | _ => []

/-- Fold the clauses of one modifier over the document. -/
def applyModClauses (sel : Value → Value → Bool) (m : String) :
    List (String × Value) → Value → Except UErr Value
  | [], root => .ok root
  | (kp, arg) :: rest, root =>
      match applyModClause sel m root kp arg with
      | .error e => .error e
      | .ok root2 => applyModClauses sel m rest root2

/-- `_applyModifier(_docUpdate, key, val)`: reject unknown modifiers,
then apply each keypath clause in enumeration order. -/
def applyModifier (sel : Value → Value → Bool) (root : Value) (m : String) (val : Value) :
    Except UErr Value :=
  if !knownModifier m then .error (.invalidModifier m)
  else applyModClauses sel m (clausesOf val) root

/-! ### Collection state -/

/-- The collection's mutable state: `docs` (the authoritative ordered
store) and `doc_indexes` (the id-string → position lookup). -/
structure Collection where
  docs : List Doc
  doc_indexes : List (String × Nat)
deriving DecidableEq

/-- Read an entry of `doc_indexes` (a JS object keyed by id strings). -/
def lookupIdx : List (String × Nat) → String → Option Nat
  | [], _ => none
  | (k', i) :: rest, k => if k' = k then some i else lookupIdx rest k

/-- Write an entry of `doc_indexes`. -/
def setIdx : List (String × Nat) → String → Nat → List (String × Nat)
  | [], k, i => [(k, i)]
  | (k', i') :: rest, k, i =>
      if k' = k then (k', i) :: rest else (k', i') :: setIdx rest k i

/-- The JS `delete doc_indexes[k]`. -/
def delIdx : List (String × Nat) → String → List (String × Nat)
  | [], _ => []
  | (k', i') :: rest, k => if k' = k then rest else (k', i') :: delIdx rest k

/-- An observable effect: an event multicast to the observer stores
(`MongoPortable._emit`), recorded with the collection state at the
moment of emission. -/
inductive Effect where
  | emit : String → Collection → Effect
deriving DecidableEq

/-- String coercion of an `_id` value used as the `doc_indexes` key.
Stored documents always carry a `str` or `oid` id (insert coerces
numbers to strings and throws on other truthy values), where
`_.toString` and the raw JS property-key coercion agree.  The remaining
variants get their JS `String()` renderings; a non-empty array id
(unreachable for a stored document) is collapsed to `""`, the rendering
of the empty array. -/
def idToKey : Value → String
  | .str s => s
  | .oid s => s
  | .num n => toString n
  | .bool b => if b then "true" else "false"
  | .null => "null"
  | .undef => "undefined"
  | .arr _ => ""
  | .obj _ => "[object Object]"

/-- `doc_indexes` key of a document. -/
def docKey (d : Doc) : String :=
  idToKey ((getField d "_id").getD .undef)

/-- `docs[index_by_id[d._id]] === d` for every stored document — the
spec's id-index invariant, as a decidable check. -/
def indexInvariantB (c : Collection) : Bool :=
  c.docs.all (fun d =>
    match lookupIdx c.doc_indexes (docKey d) with
    | some i => decide (c.docs.get? i = some d)
    | none => false)

/-- Did the operation throw? -/
def exceptFailed : Except UErr α → Bool
  | .ok _ => false
  | .error _ => true

/-! ### insert -/

/-- The JS `(_doc._id || '')` followed by `.replace`: falsy values
coerce to the empty string; a truthy non-string has no `.replace`
method and throws a TypeError.  (Numbers were already converted to
strings by the preceding step, so a non-zero number here is
unreachable, but it would throw just the same.) -/
def jsIdCoerce : Option Value → Except UErr String
  | none => .ok ""
  | some .undef => .ok ""
  | some .null => .ok ""
  | some (.bool false) => .ok ""
  | some (.num 0) => .ok ""
  | some (.str s) => .ok s
  | some _ => .error .typeError

/-- `Collection.prototype.insert`: deep-copy (identity here), coerce a
numeric `_id` to a string, strip every non-digit character, generate a
fresh ObjectId when the result is nil or empty, stamp `timestamp` with
a fresh ObjectId's generation time, register the index entry, append,
emit `insert`, and return the stored document.  The fresh identifier
string and the generation time are oracle parameters. -/
def Collection.insert (c : Collection) (doc : Doc) (freshId : String) (genTime : Int) :
    Collection × List Effect × Except UErr Doc :=
  let d1 := match getField doc "_id" with
    | some (.num n) => setField doc "_id" (.str (toString n))
    | _ => doc
  match jsIdCoerce (getField d1 "_id") with
  | .error e => (c, [], .error e)
  | .ok s =>
      let sDigits := String.mk (s.data.filter Char.isDigit)
      let idVal : Value := if sDigits.isEmpty then .oid freshId else .str sDigits
      let d2 := setField d1 "_id" idVal
      let d3 := setField d2 "timestamp" (.num genTime)
      let c2 : Collection :=
        { docs := c.docs ++ [d3],
          doc_indexes := setIdx c.doc_indexes (idToKey idVal) c.docs.length }
      (c2, [.emit "insert" c2], .ok d3)

/-! ### update -/

/-- Per-call options of `Collection.prototype.update`. -/
structure UpdateOpts where
  updateAsMongo : Bool
  override : Bool
  multi : Bool
  upsert : Bool
deriving DecidableEq

/-- Return shape of `Collection.prototype.update`
(`{updated: {documents, count}, inserted: {documents, count}}`). -/
structure UpdateRes where
  updatedDocuments : Option (List Doc)
  updatedCount : Nat
  insertedDocument : Option Doc
  insertedCount : Nat
deriving DecidableEq

/-- The per-document key scan of `update`: walks the update document's
keys in enumeration order tracking `hasModifier`, raising the
strict-mode errors, and computing the `override` flag (initially JS
`null`, i.e. falsy). -/
def scanKeysAux (uam multi oov : Bool) :
    List String → Bool → Option Bool → Except UErr (Option Bool)
  | [], _, ov => .ok ov
  | k :: rest, hasMod, _ov =>
      let m := startsWithDollar k
      let hasMod2 := hasMod || m
      if uam then
        if hasMod2 && !m then .error .allUpdateFieldsMustBeOperator
        else if !hasMod2 && multi then .error .noMultiUpdateWithoutOperators
        else scanKeysAux uam multi oov rest hasMod2 (some (!hasMod2))
      else scanKeysAux uam multi oov rest hasMod2 (some oov)

/-- Entry point of the key scan; a JS-falsy final `override` (never
assigned) counts as false. -/
def scanKeys (keys : List String) (uam multi oov : Bool) : Except UErr Bool :=
  match scanKeysAux uam multi oov keys false none with
  | .error e => .error e
  | .ok ov => .ok (ov.getD false)

/-- The enumerated `(key, value)` pairs of an update document. -/
def forInClauses (d : Doc) : List (String × Value) :=
  (forInKeys d).filterMap (fun k => (getField d k).map (fun v => (k, v)))

/-- The override branch of `update`: clone the update document, then
for each of its keys either warn (keys starting with `$` or containing
`.` are kept!) or delete the key from the clone, and finally force
`_id` back to the target document's `_id`. -/
def buildOverrideDoc (upd : Doc) (doc : Doc) : Doc :=
  let base := (forInKeys upd).foldl (fun d k =>
      if startsWithDollar k || containsDot k then d else delField d k) upd
  setField base "_id" ((getField doc "_id").getD .undef)

/-- The non-override branch of `update`: clone the target document and
walk the update keys; `$`-keys run `_applyModifier`, other keys are
shallow-assigned only when the field already exists with a non-nil
value and is not `_id` (otherwise a warning is logged). -/
def applyUpdateKeys (sel : Value → Value → Bool) :
    List (String × Value) → Doc → Except UErr Doc
  | [], d => .ok d
  | (k, v) :: rest, d =>
      if startsWithDollar k then
        match applyModifier sel (.obj d) k v with
        | .error e => .error e
        | .ok (.obj d2) => applyUpdateKeys sel rest d2
        | .ok _ => applyUpdateKeys sel rest d   -- unreachable: the root stays an object
      else
        match getField d k with
        | some v0 =>
            if v0 = Value.null ∨ v0 = Value.undef then applyUpdateKeys sel rest d
            else if k = "_id" then applyUpdateKeys sel rest d
            else applyUpdateKeys sel rest (setField d k v)
        | none => applyUpdateKeys sel rest d

/-- Build `_docUpdate` for one target document. -/
def applyUpdateToDoc (sel : Value → Value → Bool) (upd : Doc) (doc : Doc) (ov : Bool) :
    Except UErr Doc :=
  if ov then .ok (buildOverrideDoc upd doc)
  else applyUpdateKeys sel (forInClauses upd) doc

/-- `this.docs[this.doc_indexes[_docUpdate._id]] = _docUpdate`.  A
missing index entry makes the JS subscript the string "undefined",
which stores an array *property*, not an element: the docs sequence is
unchanged. -/
def commitDoc (c : Collection) (d : Doc) : Collection :=
  match lookupIdx c.doc_indexes (docKey d) with
  | some i => { c with docs := c.docs.set i d }
  | none => c

/-- The per-target loop of `update`.  Each target document is scanned,
transformed and committed in place before the next one is processed;
an error aborts the loop, leaving the commits already made. -/
def updateLoopAux (sel : Value → Value → Bool) (upd : Doc) (uam multi oov : Bool) :
    List Doc → Collection → List Doc → Collection × Except UErr (List Doc)
  | [], c, acc => (c, .ok acc)
  | doc :: rest, c, acc =>
      match scanKeys (forInKeys upd) uam multi oov with
      | .error e => (c, .error e)
      | .ok ov =>
          match applyUpdateToDoc sel upd doc ov with
          | .error e => (c, .error e)
          | .ok d2 => updateLoopAux sel upd uam multi oov rest (commitDoc c d2) (acc ++ [d2])

/-- `Collection.prototype.update`.  The target set is fetched through
`find`/`findOne` (which emits its event first; Cursor.js and
Selector.js are not among the sources, so the compiled matcher is a
parameter and — modelled from the spec — `find {forceFetch}` yields
every match in insertion order while `findOne` yields the first).
An empty target set with `upsert` hands the update document itself to
`insert`; otherwise each target is transformed and committed, `update`
is emitted, and the result counts are returned. -/
def Collection.update (sel : Value → Value → Bool) (c : Collection) (matcher : Doc → Bool)
    (upd : Doc) (opts : UpdateOpts) (freshId : String) (genTime : Int) :
    Collection × List Effect × Except UErr UpdateRes :=
  let findEff := Effect.emit (if opts.multi then "find" else "findOne") c
  let targets := if opts.multi then c.docs.filter matcher
    else match c.docs.find? matcher with
      | some d => [d]
      | none => []
  if targets.isEmpty then
    if opts.upsert then
      match Collection.insert c upd freshId genTime with
      | (c2, effs, .error e) => (c2, findEff :: effs, .error e)
      | (c2, effs, .ok d) => (c2, findEff :: effs, .ok ⟨none, 0, some d, 1⟩)
    else (c, [findEff], .ok ⟨none, 0, none, 0⟩)
  else
    match updateLoopAux sel upd opts.updateAsMongo opts.multi opts.override targets c [] with
    | (c2, .error e) => (c2, [findEff], .error e)
    | (c2, .ok updated) =>
        (c2, [findEff, .emit "update" c2], .ok ⟨some updated, updated.length, none, 0⟩)

/-! ### remove -/

/-- `Collection.prototype.remove`: fetch the matches through `find`
(which emits `find` with the pre-removal state; Cursor.js is not among
the sources — modelled from the spec, the cursor captures the matching
documents of the live list in insertion order and applies `find`'s
default `limit` of 15).  For each match: read its index entry, delete
the entry, and splice the document out of `docs`; JS
`splice(undefined, 1)` (missing entry) removes the first element.  No
other index entry is touched.  Finally emit `remove` and return the
removed documents. -/
def Collection.remove (c : Collection) (matcher : Doc → Bool) :
    Collection × List Effect × List Doc :=
  let matched := (c.docs.filter matcher).take 15
  let c2 := matched.foldl (fun acc d =>
      { docs :=
          match lookupIdx acc.doc_indexes (docKey d) with
          | some i => acc.docs.eraseIdx i
          | none => acc.docs.eraseIdx 0,
        doc_indexes := delIdx acc.doc_indexes (docKey d) }) c
  (c2, [.emit "find" c, .emit "remove" c2], matched)

/-- Events whose emission marks a committed mutation. -/
def isMutationEventName (n : String) : Bool :=
  n == "insert" || n == "update" || n == "remove"

/-- Every mutation event in the trace was emitted with the final
committed state, and none at all if the operation failed. -/
def emitsCommittedB (final : Collection) (effs : List Effect) (failed : Bool) : Bool :=
  effs.all (fun e => match e with
    | .emit n st => !isMutationEventName n || (!failed && decide (st = final)))

/-! ## Concrete states used by the claim analyses -/

/-- A selector-compiler stand-in that matches nothing (no `$pull`
sub-selector is exercised where it is used). -/
def selNone : Value → Value → Bool := fun _ _ => false

/-- The collection obtained by inserting `{_id:"1"}` and `{_id:"2"}`
into a fresh collection. -/
def twoDocCollection : Collection :=
  (Collection.insert ((Collection.insert ⟨[], []⟩ [("_id", .str "1")] "a" 0).1)
    [("_id", .str "2")] "b" 0).1

/-- A collection holding the single document `{_id:"1", a:1}`. -/
def oneDocA1 : Collection :=
  ⟨[[("_id", .str "1"), ("a", .num 1)]], [("1", 0)]⟩

/-- A collection holding `{_id:"1", a:1}` and `{_id:"2", a:"x"}`. -/
def twoDocMixed : Collection :=
  ⟨[[("_id", .str "1"), ("a", .num 1)], [("_id", .str "2"), ("a", .str "x")]],
    [("1", 0), ("2", 1)]⟩

/-- A collection holding the single document `{_id:"1", a:"x"}`. -/
def oneDocAX : Collection :=
  ⟨[[("_id", .str "1"), ("a", .str "x")]], [("1", 0)]⟩

/-- The `$each` wrapper value `{$each: [1]}`. -/
def eachWrapper1 : Value := .obj [("$each", .arr [.num 1])]

/-! ## C1 -/

/-- C1: the claim says that after every committed operation
`docs[index_by_id[d._id]] === d` for every stored `d`, `remove`
rebuilding the entries of shifted documents.  The code's `remove` only
deletes the removed id's entry and splices `docs`; it rebuilds
nothing.  After inserting `{_id:"1"}`, `{_id:"2"}` the invariant
holds, but removing `{_id:"1"}` leaves `doc_indexes["2"] = 1` while
the surviving document sits at position 0, so the invariant is
broken — the code contradicts the invariant stated by its own
specification and relied on by `update`'s commit step. -/
theorem C1_remove_leaves_stale_index :
    indexInvariantB twoDocCollection = true ∧
    (Collection.remove twoDocCollection (fun d => docKey d == "1")).1 =
      ⟨[[("_id", Value.str "2"), ("timestamp", Value.num 0)]], [("2", 1)]⟩ ∧
    indexInvariantB (Collection.remove twoDocCollection (fun d => docKey d == "1")).1 = false := by
  refine ⟨by decide, by decide, by decide⟩

/-! ## C2 -/

/-- C2: the claim (and the spec) say a strict-mode non-operator update
replaces the stored document with the update document, preserving only
`_id`: `update({a:1}, {b:2})` should store `{_id:.., b:2}`.  The code's
override branch does the opposite of its own comment ("Must ignore
fields starting with '$', '.'"): it *deletes* every plain key from the
clone and keeps the `$`/dotted ones, so the stored document ends up as
`{_id:"1"}` with `b` lost. -/
theorem C2_strict_replacement_loses_fields :
    (Collection.update selNone oneDocA1 (fun d => getField d "a" == some (Value.num 1))
        [("b", Value.num 2)] ⟨true, false, false, false⟩ "f" 0).1.docs =
      [[("_id", Value.str "1")]] ∧
    (Collection.update selNone oneDocA1 (fun d => getField d "a" == some (Value.num 1))
        [("b", Value.num 2)] ⟨true, false, false, false⟩ "f" 0).2.2 =
      .ok ⟨some [[("_id", Value.str "1")]], 1, none, 0⟩ := by
  refine ⟨by decide, by decide⟩

/-! ## C3 -/

/-- C3 counterexample: the claim says a failing update leaves the
stored documents unchanged *even when multi is set*.  Updating
`{_id:"1", a:1}` and `{_id:"2", a:"x"}` with `{$inc:{a:1}}` and
`multi` raises "Cannot apply $inc modifier to non-number" on the
second document — but the first document was already committed in
place (`a` is now 2), so the collection differs from its initial
state. -/
theorem C3_counterexample_multi_partial_commit :
    (Collection.update selNone twoDocMixed (fun _ => true) [("$inc", .obj [("a", .num 1)])]
        ⟨true, false, true, false⟩ "f" 0).2.2 = .error .incNonNumberTarget ∧
    (Collection.update selNone twoDocMixed (fun _ => true) [("$inc", .obj [("a", .num 1)])]
        ⟨true, false, true, false⟩ "f" 0).1 =
      ⟨[[("_id", Value.str "1"), ("a", Value.num 2)],
        [("_id", Value.str "2"), ("a", Value.str "x")]], [("1", 0), ("2", 1)]⟩ ∧
    (Collection.update selNone twoDocMixed (fun _ => true) [("$inc", .obj [("a", .num 1)])]
        ⟨true, false, true, false⟩ "f" 0).1 ≠ twoDocMixed := by
  refine ⟨by decide, by decide, by decide⟩

/-- A failing `insert` leaves the collection untouched. -/
theorem insert_error_state (c : Collection) (d : Doc) (fid : String) (gt : Int) (e : UErr)
    (h : (Collection.insert c d fid gt).2.2 = .error e) :
    (Collection.insert c d fid gt).1 = c := by
  unfold Collection.insert at *
  split at h <;> (dsimp only at h ⊢; split at h <;> simp_all)

/-- C3 amended: update errors are raised before any in-place write *of
the failing document* — each target is transformed on a clone and
committed only afterwards — so with a single matched target (`multi`
unset) a failing update leaves the collection unchanged; under `multi`,
targets processed before the failing one keep their committed updates
(see the counterexample). -/
theorem C3_amended_single_target_atomic :
    ∀ (sel : Value → Value → Bool) (c : Collection) (matcher : Doc → Bool) (upd : Doc)
      (uam ov ups : Bool) (fid : String) (gt : Int) (e : UErr),
      (Collection.update sel c matcher upd ⟨uam, ov, false, ups⟩ fid gt).2.2 = .error e →
      (Collection.update sel c matcher upd ⟨uam, ov, false, ups⟩ fid gt).1 = c := by
  intro sel c matcher upd uam ov ups fid gt e h
  unfold Collection.update at *
  simp only at h ⊢
  cases hf : c.docs.find? matcher with
  | none =>
      simp only [hf] at h ⊢
      by_cases hu : ups <;> simp only [hu, List.isEmpty_nil, if_true, if_false] at h ⊢
      · rcases hi : Collection.insert c upd fid gt with ⟨c2, effs, r⟩
        simp only [hi] at h ⊢
        cases r with
        | error e2 =>
            have := insert_error_state c upd fid gt e2 (by rw [hi])
            rw [hi] at this
            simpa using this
        | ok d2 => simp at h
      · simp at h
  | some d0 =>
      simp only [hf] at h ⊢
      simp only [List.isEmpty_cons, if_false, Bool.false_eq_true]
      simp only [List.isEmpty_cons, if_false, Bool.false_eq_true] at h
      unfold updateLoopAux at h ⊢
      cases hs : scanKeys (forInKeys upd) uam false ov with
      | error e2 => simp [hs] at h ⊢
      | ok ovr =>
          simp only [hs] at h ⊢
          cases ha : applyUpdateToDoc sel upd d0 ovr with
          | error e2 => simp [ha] at h ⊢
          | ok d2 =>
              simp only [ha] at h
              unfold updateLoopAux at h
              simp at h

/-- Witness for the amended C3 theorem: a single-target `$inc` on a
string field fails and leaves the collection unchanged. -/
theorem C3_amended_witness :
    (Collection.update selNone oneDocAX (fun _ => true) [("$inc", .obj [("a", .num 1)])]
        ⟨true, false, false, false⟩ "f" 0).2.2 = .error .incNonNumberTarget ∧
    (Collection.update selNone oneDocAX (fun _ => true) [("$inc", .obj [("a", .num 1)])]
        ⟨true, false, false, false⟩ "f" 0).1 = oneDocAX :=
  ⟨by decide,
   C3_amended_single_target_atomic selNone oneDocAX (fun _ => true)
     [("$inc", .obj [("a", .num 1)])] true false false "f" 0 .incNonNumberTarget (by decide)⟩

/-! ## C4 -/

/-- C4 counterexample: the claim says mixing `$`-prefixed and plain
keys raises a validation error *in either key order*.  With the plain
key first — `{a:1, $set:{b:2}}` — the scan never fires: when the plain
key is seen `hasModifier` is still false, and when `$set` is seen
`modifier` is true, so `hasModifier && !modifier` never holds.  The
update runs without error, in modifier mode, and both clauses apply. -/
theorem C4_counterexample_plain_key_first :
    exceptFailed (Collection.update selNone oneDocA1 (fun _ => true)
        [("a", .num 1), ("$set", .obj [("b", .num 2)])]
        ⟨true, false, false, false⟩ "f" 0).2.2 = false ∧
    (Collection.update selNone oneDocA1 (fun _ => true)
        [("a", .num 1), ("$set", .obj [("b", .num 2)])]
        ⟨true, false, false, false⟩ "f" 0).1.docs =
      [[("_id", Value.str "1"), ("a", Value.num 1), ("b", Value.num 2)]] := by
  refine ⟨by decide, by decide⟩

/-- Some plain (non-`$`) key occurs strictly after a `$`-prefixed key,
starting from the given "a dollar key was already seen" flag. -/
def dollarThenPlainAux (hasDollar : Bool) : List String → Bool
  | [] => false
  | k :: rest =>
      (hasDollar && !startsWithDollar k) ||
        dollarThenPlainAux (hasDollar || startsWithDollar k) rest

/-- The strict-mode scan (with `multi` unset) raises the mixed-keys
error exactly when a plain key follows a `$`-key. -/
theorem scanKeysAux_mixed_iff (oov : Bool) :
    ∀ (ks : List String) (hasMod : Bool) (ov : Option Bool),
      (scanKeysAux true false oov ks hasMod ov = .error .allUpdateFieldsMustBeOperator)
        ↔ dollarThenPlainAux hasMod ks = true := by
  intro ks
  induction ks with
  | nil => intro hasMod ov; simp [scanKeysAux, dollarThenPlainAux]
  | cons k rest ih =>
      intro hasMod ov
      by_cases hm : startsWithDollar k
      · simp [scanKeysAux, dollarThenPlainAux, hm, ih]
      · by_cases hh : hasMod
        · simp [scanKeysAux, dollarThenPlainAux, hm, hh]
        · simp [scanKeysAux, dollarThenPlainAux, hm, hh, ih]

/-- Every error `jsWrite` raises is a TypeError. -/
theorem jsWrite_error (p : Value) (s : Seg) (v : Value) (e : UErr)
    (he : jsWrite p s v = .error e) : e = .typeError := by
  unfold jsWrite at he
  repeat' split at he
  all_goals simp_all

/-- The path resolver never raises the mixed-keys error. -/
theorem findModTarget_ne_mixed :
    ∀ (node : Value) (parts : List String) (nc fa : Bool),
      findModTarget node parts nc fa ≠ .error .allUpdateFieldsMustBeOperator := by
  apply findModTarget.induct
    (fun node parts nc fa => findModTarget node parts nc fa ≠ .error .allUpdateFieldsMustBeOperator)
  case case10 =>
      intro p rest nc fa a h1 h2 h3 k padded h4 padded2 child h5 e heq ih
      unfold child padded2 padded k at *
      simp_all only [findModTarget]
      split <;> simp_all
  case case11 =>
      intro p rest nc fa a h1 h2 h3 k padded h4 padded2 child h5 child2 out heq ih
      unfold child padded2 padded k at *
      simp_all only [findModTarget]
      split <;> simp_all
  case case12 =>
      intro p rest nc fa a h1 h2 h3 k padded h4 padded2 child h5
      unfold child padded2 padded k at *
      simp_all only [findModTarget]
      split <;> simp_all
  all_goals intros
  all_goals try simp_all [findModTarget]
  all_goals (repeat' split) <;> simp_all

/-- Property writes never raise the mixed-keys error. -/
theorem jsWrite_ne_mixed (p : Value) (s : Seg) (v : Value) :
    jsWrite p s v ≠ .error .allUpdateFieldsMustBeOperator := by
  intro h
  have := jsWrite_error p s v _ h
  simp at this

/-- `$inc` never raises the mixed-keys error. -/
theorem incMod_ne_mixed (t : Value) (s : Seg) (a : Value) :
    incMod t s a ≠ .error .allUpdateFieldsMustBeOperator := by
  intro h
  unfold incMod at h
  repeat' split at h
  all_goals first
    | exact jsWrite_ne_mixed _ _ _ h
    | simp_all

/-- `$set` never raises the mixed-keys error. -/
theorem setMod_ne_mixed (t : Value) (s : Seg) (a : Value) :
    setMod t s a ≠ .error .allUpdateFieldsMustBeOperator :=
  jsWrite_ne_mixed t s a

/-- `$push` never raises the mixed-keys error. -/
theorem pushMod_ne_mixed (t : Value) (s : Seg) (a : Value) :
    pushMod t s a ≠ .error .allUpdateFieldsMustBeOperator := by
  intro h
  unfold pushMod at h
  repeat' split at h
  all_goals first
    | exact jsWrite_ne_mixed _ _ _ h
    | simp_all

/-- `$pushAll` never raises the mixed-keys error. -/
theorem pushAllMod_ne_mixed (t : Value) (s : Seg) (a : Value) :
    pushAllMod t s a ≠ .error .allUpdateFieldsMustBeOperator := by
  intro h
  unfold pushAllMod at h
  repeat' split at h
  all_goals first
    | exact jsWrite_ne_mixed _ _ _ h
    | simp_all

/-- `$addToSet` never raises the mixed-keys error. -/
theorem addToSetMod_ne_mixed (t : Value) (s : Seg) (a : Value) :
    addToSetMod t s a ≠ .error .allUpdateFieldsMustBeOperator := by
  intro h
  unfold addToSetMod at h
  repeat' split at h
  all_goals first
    | exact jsWrite_ne_mixed _ _ _ h
    | simp_all

/-- `$pop` never raises the mixed-keys error. -/
theorem popMod_ne_mixed (t : Value) (s : Seg) (a : Value) :
    popMod t s a ≠ .error .allUpdateFieldsMustBeOperator := by
  intro h
  unfold popMod at h
  repeat' split at h
  all_goals first
    | exact jsWrite_ne_mixed _ _ _ h
    | simp_all

/-- `$pull` never raises the mixed-keys error. -/
theorem pullMod_ne_mixed (sel : Value → Value → Bool) (t : Value) (s : Seg) (a : Value) :
    pullMod sel t s a ≠ .error .allUpdateFieldsMustBeOperator := by
  intro h
  unfold pullMod at h
  repeat' split at h
  all_goals first
    | exact jsWrite_ne_mixed _ _ _ h
    | simp_all

/-- `$pullAll` never raises the mixed-keys error. -/
theorem pullAllMod_ne_mixed (t : Value) (s : Seg) (a : Value) :
    pullAllMod t s a ≠ .error .allUpdateFieldsMustBeOperator := by
  intro h
  unfold pullAllMod at h
  repeat' split at h
  all_goals first
    | exact jsWrite_ne_mixed _ _ _ h
    | simp_all

/-- `$rename` never raises the mixed-keys error. -/
theorem renameApply_ne_mixed (root : Value) (pp : List Seg) (s : Seg) (arg : Value)
    (kp : String) : renameApply root pp s arg kp ≠ .error .allUpdateFieldsMustBeOperator := by
  intro h
  unfold renameApply at h
  repeat' split at h
  all_goals try simp_all [findModTarget_ne_mixed, jsWrite_ne_mixed]
  all_goals repeat' split at h
  all_goals simp_all [findModTarget_ne_mixed, jsWrite_ne_mixed]

/-- The modifier dispatch never raises the mixed-keys error. -/
theorem dispatchMod_ne_mixed (sel : Value → Value → Bool) (m : String) (t : Value) (s : Seg)
    (a : Value) : dispatchMod sel m t s a ≠ .error .allUpdateFieldsMustBeOperator := by
  intro h
  unfold dispatchMod at h
  repeat' split at h
  all_goals first
    | exact incMod_ne_mixed _ _ _ h
    | exact setMod_ne_mixed _ _ _ h
    | exact pushMod_ne_mixed _ _ _ h
    | exact pushAllMod_ne_mixed _ _ _ h
    | exact addToSetMod_ne_mixed _ _ _ h
    | exact popMod_ne_mixed _ _ _ h
    | exact pullMod_ne_mixed _ _ _ _ h
    | exact pullAllMod_ne_mixed _ _ _ h
    | simp_all

/-- One modifier clause never raises the mixed-keys error. -/
theorem applyModClause_ne_mixed (sel : Value → Value → Bool) (m : String) (root : Value)
    (kp : String) (arg : Value) : applyModClause sel m root kp arg ≠ .error .allUpdateFieldsMustBeOperator := by
  intro h
  unfold applyModClause at h
  repeat' split at h
  all_goals
    simp_all [findModTarget_ne_mixed, dispatchMod_ne_mixed, renameApply_ne_mixed]

/-- A clause list never raises the mixed-keys error. -/
theorem applyModClauses_ne_mixed (sel : Value → Value → Bool) (m : String) :
    ∀ (cs : List (String × Value)) (root : Value),
      applyModClauses sel m cs root ≠ .error .allUpdateFieldsMustBeOperator := by
  intro cs
  induction cs with
  | nil => intro root; simp [applyModClauses]
  | cons c rest ih =>
      intro root h
      unfold applyModClauses at h
      split at h
      · rename_i heq
        simp only [Except.error.injEq] at h
        rw [h] at heq
        exact applyModClause_ne_mixed _ _ _ _ _ heq
      · exact ih _ h

/-- `_applyModifier` never raises the mixed-keys error. -/
theorem applyModifier_ne_mixed (sel : Value → Value → Bool) (root : Value) (m : String)
    (val : Value) : applyModifier sel root m val ≠ .error .allUpdateFieldsMustBeOperator := by
  intro h
  unfold applyModifier at h
  split at h
  · simp at h
  · exact applyModClauses_ne_mixed _ _ _ _ h

/-- The non-override update walk never raises the mixed-keys error. -/
theorem applyUpdateKeys_ne_mixed (sel : Value → Value → Bool) :
    ∀ (cs : List (String × Value)) (d : Doc),
      applyUpdateKeys sel cs d ≠ .error .allUpdateFieldsMustBeOperator := by
  intro cs
  induction cs with
  | nil => intro d; simp [applyUpdateKeys]
  | cons c rest ih =>
      intro d h
      unfold applyUpdateKeys at h
      repeat' split at h
      all_goals first
        | exact ih _ h
        | simp_all [applyModifier_ne_mixed]

/-- Building `_docUpdate` never raises the mixed-keys error: that error
comes only from the key scan. -/
theorem applyUpdateToDoc_ne_mixed (sel : Value → Value → Bool) (upd : Doc) (doc : Doc)
    (ov : Bool) : applyUpdateToDoc sel upd doc ov ≠ .error .allUpdateFieldsMustBeOperator := by
  intro h
  unfold applyUpdateToDoc at h
  split at h
  · simp at h
  · exact applyUpdateKeys_ne_mixed _ _ _ h

/-- The key scan (strict mode, `multi` unset) raises the mixed-keys
error exactly when a plain key follows a `$`-key. -/
theorem scanKeys_mixed_iff (ks : List String) (oov : Bool) :
    scanKeys ks true false oov = .error .allUpdateFieldsMustBeOperator ↔
      dollarThenPlainAux false ks = true := by
  unfold scanKeys
  cases haux : scanKeysAux true false oov ks false none with
  | error e =>
      simp only [haux]
      constructor
      · intro h
        simp only [Except.error.injEq] at h
        rw [h] at haux
        exact (scanKeysAux_mixed_iff oov ks false none).mp haux
      · intro hp
        have hm := (scanKeysAux_mixed_iff oov ks false none).mpr hp
        rw [haux] at hm
        simp only [Except.error.injEq] at hm
        rw [hm]
  | ok ov =>
      simp only [haux]
      constructor
      · intro h; cases h
      · intro hp
        have hm := (scanKeysAux_mixed_iff oov ks false none).mpr hp
        rw [haux] at hm
        cases hm

/-- C4 amended: in strict mode, with a matched target and `multi`
unset, `update` raises the mixed-keys validation error exactly when a
plain (non-`$`) key occurs after some `$`-prefixed key in the update
document's key-enumeration order; when every plain key precedes the
`$`-keys no validation error is raised and the update runs in modifier
mode. -/
theorem C4_amended_mixed_error_iff :
    ∀ (sel : Value → Value → Bool) (c : Collection) (matcher : Doc → Bool) (upd : Doc)
      (ov ups : Bool) (fid : String) (gt : Int) (d0 : Doc),
      c.docs.find? matcher = some d0 →
      ((Collection.update sel c matcher upd ⟨true, ov, false, ups⟩ fid gt).2.2 =
          .error .allUpdateFieldsMustBeOperator ↔
        dollarThenPlainAux false (forInKeys upd) = true) := by
  intro sel c matcher upd ov ups fid gt d0 hf
  unfold Collection.update
  simp only [hf]
  simp only [List.isEmpty_cons, Bool.false_eq_true, if_false]
  unfold updateLoopAux
  cases hs : scanKeys (forInKeys upd) true false ov with
  | error e =>
      simp only [hs]
      constructor
      · intro h
        simp only [Except.error.injEq] at h
        rw [h] at hs
        exact (scanKeys_mixed_iff (forInKeys upd) ov).mp hs
      · intro hp
        have hm := (scanKeys_mixed_iff (forInKeys upd) ov).mpr hp
        rw [hs] at hm
        simp only [Except.error.injEq] at hm
        simp [hm]
  | ok ovr =>
      simp only [hs]
      have hnp : dollarThenPlainAux false (forInKeys upd) ≠ true := by
        intro hp
        have hm := (scanKeys_mixed_iff (forInKeys upd) ov).mpr hp
        rw [hs] at hm
        cases hm
      cases ha : applyUpdateToDoc sel upd d0 ovr with
      | error e2 =>
          simp only [ha]
          constructor
          · intro h
            simp only [Except.error.injEq] at h
            rw [h] at ha
            exact absurd ha (applyUpdateToDoc_ne_mixed sel upd d0 ovr)
          · intro hp; exact absurd hp hnp
      | ok d2 =>
          simp only [ha]
          unfold updateLoopAux
          constructor
          · intro h; cases h
          · intro hp; exact absurd hp hnp

/-- Witness for the amended C4 theorem: with the `$`-key first,
`{$set:{b:2}, a:1}` raises the mixed-keys error. -/
theorem C4_amended_witness :
    (Collection.update selNone oneDocA1 (fun _ => true)
        [("$set", .obj [("b", .num 2)]), ("a", .num 1)]
        ⟨true, false, false, false⟩ "f" 0).2.2 =
      .error .allUpdateFieldsMustBeOperator :=
  (C4_amended_mixed_error_iff selNone oneDocA1 (fun _ => true)
      [("$set", .obj [("b", .num 2)]), ("a", .num 1)] false false "f" 0
      [("_id", .str "1"), ("a", .num 1)] (by decide)).mpr (by decide)

/-! ## C5 -/

/-- The `_id` value `insert` stores for a provided `_id` (restricted to
the absent / string / number cases, the only ones that lead to a
successful insertion): numbers are converted to strings, every
non-digit character is stripped, and an empty or absent result is
replaced by a fresh ObjectId. -/
def normalizeId (provided : Option Value) (freshId : String) : Value :=
  match provided with
  | some (.num n) =>
      let s := String.mk ((toString n).data.filter Char.isDigit)
      if s.isEmpty then .oid freshId else .str s
  | some (.str s0) =>
      let s := String.mk (s0.data.filter Char.isDigit)
      if s.isEmpty then .oid freshId else .str s
  | _ => .oid freshId

/-- C5: for every document whose `_id` is absent, a string, or a
number (the inserted ones — any other truthy `_id` makes `insert`
throw before storing anything), `insert` succeeds and stores a copy
whose `_id` is the normalization above, whose `timestamp` is the
numeric generation time, and whose other fields are unchanged; the
stored copy is appended to `docs`. -/
theorem C5_insert_normalizes_id :
    ∀ (c : Collection) (d : Doc) (fid : String) (gt : Int),
      (getField d "_id" = none ∨ (∃ s, getField d "_id" = some (.str s)) ∨
        (∃ n, getField d "_id" = some (.num n))) →
      ∃ d2, (Collection.insert c d fid gt).2.2 = .ok d2 ∧
        (Collection.insert c d fid gt).1.docs = c.docs ++ [d2] ∧
        getField d2 "_id" = some (normalizeId (getField d "_id") fid) ∧
        getField d2 "timestamp" = some (.num gt) ∧
        (∀ k, k ≠ "_id" → k ≠ "timestamp" → getField d2 k = getField d k) := by
  intro c d fid gt h
  rcases h with h | ⟨s, h⟩ | ⟨n, h⟩
  · simp only [Collection.insert, h, jsIdCoerce, normalizeId]
    refine ⟨_, rfl, rfl, ?_, ?_, ?_⟩
    · rw [getField_setField_ne _ _ _ _ (by decide), getField_setField_self]
      rfl
    · rw [getField_setField_self]
    · intro k hk1 hk2
      rw [getField_setField_ne _ _ _ _ (Ne.symm hk2),
        getField_setField_ne _ _ _ _ (Ne.symm hk1)]
  · simp only [Collection.insert, h, jsIdCoerce, normalizeId]
    refine ⟨_, rfl, rfl, ?_, ?_, ?_⟩
    · rw [getField_setField_ne _ _ _ _ (by decide), getField_setField_self]
    · rw [getField_setField_self]
    · intro k hk1 hk2
      rw [getField_setField_ne _ _ _ _ (Ne.symm hk2),
        getField_setField_ne _ _ _ _ (Ne.symm hk1)]
  · simp only [Collection.insert, h, getField_setField_self, jsIdCoerce, normalizeId]
    refine ⟨_, rfl, rfl, ?_, ?_, ?_⟩
    · rw [getField_setField_ne _ _ _ _ (by decide), getField_setField_self]
    · rw [getField_setField_self]
    · intro k hk1 hk2
      rw [getField_setField_ne _ _ _ _ (Ne.symm hk2),
        getField_setField_ne _ _ _ _ (Ne.symm hk1),
        getField_setField_ne _ _ _ _ (Ne.symm hk1)]

/-- Witness for C5: inserting `{_id: 7, name: "a"}` stores
`{_id: "7", name: "a", timestamp: 99}`. -/
theorem C5_witness :
    ∃ d2, (Collection.insert ⟨[], []⟩ [("_id", Value.num 7), ("name", Value.str "a")]
        "fresh" 99).2.2 = .ok d2 ∧
      (Collection.insert ⟨[], []⟩ [("_id", Value.num 7), ("name", Value.str "a")]
        "fresh" 99).1.docs = [] ++ [d2] ∧
      getField d2 "_id" =
        some (normalizeId (getField [("_id", Value.num 7), ("name", Value.str "a")] "_id")
          "fresh") ∧
      getField d2 "timestamp" = some (.num 99) ∧
      (∀ k, k ≠ "_id" → k ≠ "timestamp" →
        getField d2 k = getField [("_id", Value.num 7), ("name", Value.str "a")] k) :=
  C5_insert_normalizes_id ⟨[], []⟩ [("_id", Value.num 7), ("name", Value.str "a")] "fresh" 99
    (Or.inr (Or.inr ⟨7, by decide⟩))

/-! ## C6 -/

/-- C6 counterexample: the claim says that whenever the current node is
an array and the next segment is not all digits, the resolver fails
with the cannot-append error.  But the `no_create` early return runs
first: with `no_create` set (as for `$unset`/`$pop`/`$pull` paths) and
a segment that is not a property of the array, the resolver returns
`undefined` and the operation is silently skipped — no error.  The
same walk without `no_create` does fail. -/
theorem C6_counterexample_no_create_skips :
    findModTarget (.obj [("a", .arr [.num 1, .num 2])]) ["a", "x"] true false =
      .ok (.obj [("a", .arr [.num 1, .num 2])], .undef) ∧
    findModTarget (.obj [("a", .arr [.num 1, .num 2])]) ["a", "x"] false false =
      .error (.cantAppendToArray "x") := by
  refine ⟨by decide, by decide⟩

/-- C6 amended: at an array node, provided the `no_create` early
return does not fire (if `no_create` is set the segment must be a
property of the array): with `forbid_array` the resolver yields the
null target; otherwise a non-digit segment fails with the
cannot-append error, and a digit segment `k` extends the array with
null padding so that `k ≤ length` (indexing at `k` is legal), then
returns the padded array with the rewritten index if last, or descends
into element `k` (pushing a fresh `{}` when `k` equals the padded
length, failing when the element is not of object type) if
intermediate. -/
theorem C6_amended_array_step :
    ∀ (xs : List Value) (p : String) (rest : List String) (nc fa : Bool),
      (nc = true → arrHasProp xs p = true) →
      ((fa = true → findModTarget (.arr xs) (p :: rest) nc fa = .ok (.arr xs, .nullT)) ∧
       (fa = false → isDigitString p = false →
          findModTarget (.arr xs) (p :: rest) nc fa = .error (.cantAppendToArray p)) ∧
       (fa = false → isDigitString p = true → rest = [] →
          findModTarget (.arr xs) (p :: rest) nc fa =
            .ok (.arr (xs ++ List.replicate (digitsToNat p - xs.length) Value.null),
              .found [] (.idx (digitsToNat p))) ∧
          digitsToNat p ≤ (xs ++ List.replicate (digitsToNat p - xs.length) Value.null).length) ∧
       (fa = false → isDigitString p = true → rest ≠ [] →
          findModTarget (.arr xs) (p :: rest) nc fa =
            (let k := digitsToNat p
             let padded := xs ++ List.replicate (k - xs.length) Value.null
             let padded2 := if padded.length = k then padded ++ [Value.obj []] else padded
             let child := padded2.getD k Value.undef
             if isJsObjectType child then
               match findModTarget child rest nc fa with
               | .error e => .error e
               | .ok (child2, out) => .ok (.arr (padded2.set k child2), consPath (.idx k) out)
             else .error (.cantModifyListValue (rest.headD ""))))) := by
  intro xs p rest nc fa h
  have hguard : (nc && !arrHasProp xs p) = false := by
    cases nc
    · rfl
    · simp [h rfl]
  refine ⟨?_, ?_, ?_, ?_⟩
  · intro hfa
    subst hfa
    simp [findModTarget, hguard]
  · intro hfa hd
    subst hfa
    simp [findModTarget, hguard, hd]
  · intro hfa hd hrest
    subst hfa
    subst hrest
    constructor
    · simp [findModTarget, hguard, hd]
    · simp only [List.length_append, List.length_replicate]
      omega
  · intro hfa hd hrest
    subst hfa
    have : rest.isEmpty = false := by
      cases rest
      · exact absurd rfl hrest
      · rfl
    simp [findModTarget, hguard, hd, this]

/-- Witness for the amended C6 theorem: resolving the last segment "3"
against the array `[1]` pads with nulls and rewrites the index. -/
theorem C6_amended_witness :
    findModTarget (.arr [Value.num 1]) ["3"] false false =
      .ok (.arr ([Value.num 1] ++ List.replicate (digitsToNat "3" - [Value.num 1].length)
          Value.null), .found [] (.idx (digitsToNat "3"))) ∧
    digitsToNat "3" ≤
      ([Value.num 1] ++ List.replicate (digitsToNat "3" - [Value.num 1].length)
        Value.null).length :=
  (C6_amended_array_step [Value.num 1] "3" [] false false
      (by intro hx; exact absurd hx (by decide))).2.2.1 rfl (by decide) rfl

/-! ## C7 -/

/-- A single-key update document enumerates to its one key. -/
theorem forInKeys_single (k : String) (v : Value) : forInKeys [(k, v)] = [k] := by
  unfold forInKeys
  simp only [List.map_cons, List.map_nil, dedupKeysAux, List.contains_nil]
  cases hik : isArrayIndexKey k <;>
    simp [hik, insertIdxSorted, dedupKeysAux]

/-- C7: `$inc` with numeric argument `n` on a dot-free field `k` of a
document: absent target → created with value `n`; numeric target →
`n` added; any other existing target → "Cannot apply $inc modifier to
non-number". -/
theorem C7_inc_semantics :
    ∀ (sel : Value → Value → Bool) (fs : Doc) (k : String) (n : Int),
      splitDot k = [k] →
      applyModifier sel (.obj fs) "$inc" (.obj [(k, .num n)]) =
        (match getField fs k with
         | none => .ok (.obj (setField fs k (.num n)))
         | some (.num m) => .ok (.obj (setField fs k (.num (m + n))))
         | some _ => .error .incNonNumberTarget) := by
  intro sel fs k n hk
  have hclauses : clausesOf (.obj [(k, Value.num n)]) = [(k, Value.num n)] := by
    simp [clausesOf, forInKeys_single, getField]
  unfold applyModifier
  rw [hclauses]
  cases hg : getField fs k with
  | none =>
      simp [applyModClauses, applyModClause, hk, noCreateModifier, knownModifier,
        findModTarget, dispatchMod, incMod, isContainer, contHas, hasField, hg,
        jsGet, contGet, jsWrite, getAtPath, setAtPath]
  | some v =>
      cases v <;>
        simp [applyModClauses, applyModClause, hk, noCreateModifier, knownModifier,
          findModTarget, dispatchMod, incMod, isContainer, contHas, hasField, hg,
          jsGet, contGet, jsWrite, getAtPath, setAtPath]

/-- Witness for C7: the spec example — `$inc:{a:5}` turns `a:1` into
`a:6`, and applied again turns `a:6` into `a:11`. -/
theorem C7_witness :
    applyModifier selNone (.obj [("a", .num 1)]) "$inc" (.obj [("a", .num 5)]) =
      .ok (.obj [("a", .num 6)]) ∧
    applyModifier selNone (.obj [("a", .num 6)]) "$inc" (.obj [("a", .num 5)]) =
      .ok (.obj [("a", .num 11)]) := by
  constructor
  · have h := C7_inc_semantics selNone [("a", .num 1)] "a" 5 (by decide)
    rw [h]
    decide
  · have h := C7_inc_semantics selNone [("a", .num 6)] "a" 5 (by decide)
    rw [h]
    decide

/-! ## C8 -/

/-- C8 counterexample: `$addToSet` with the same value twice is NOT
always the same as once.  With the `$each` wrapper `{$each:[1]}` on an
absent field, the first application stores the wrapper itself as a
literal element (`target[field] = [arg]` does not unwrap `$each`); the
second application then recognizes the wrapper and appends `1`. -/
theorem C8_counterexample_addToSet_each :
    applyModifier selNone (.obj []) "$addToSet" (.obj [("a", eachWrapper1)]) =
      .ok (.obj [("a", .arr [eachWrapper1])]) ∧
    applyModifier selNone (.obj [("a", .arr [eachWrapper1])]) "$addToSet"
        (.obj [("a", eachWrapper1)]) =
      .ok (.obj [("a", .arr [eachWrapper1, .num 1])]) ∧
    Value.arr [eachWrapper1, .num 1] ≠ Value.arr [eachWrapper1] := by
  refine ⟨by decide, by decide, by decide⟩

theorem addUnlessPresent_mono (xs : List Value) (w v : Value)
    (h : xs.any (fun e => valueEq v e) = true) :
    (addUnlessPresent xs w).any (fun e => valueEq v e) = true := by
  unfold addUnlessPresent
  split
  · exact h
  · simp [List.any_append, h]

theorem addUnlessPresent_self (xs : List Value) (w : Value) :
    (addUnlessPresent xs w).any (fun e => valueEq w e) = true := by
  unfold addUnlessPresent
  split
  · assumption
  · simp [List.any_append, valueEq_refl]

theorem foldl_addUnlessPresent_mono :
    ∀ (vs : List Value) (xs : List Value) (v : Value),
      xs.any (fun e => valueEq v e) = true →
      (vs.foldl addUnlessPresent xs).any (fun e => valueEq v e) = true := by
  intro vs
  induction vs with
  | nil => intro xs v h; simpa using h
  | cons w rest ih =>
      intro xs v h
      simpa [List.foldl_cons] using ih _ _ (addUnlessPresent_mono xs w v h)

theorem foldl_addUnlessPresent_mem :
    ∀ (vs : List Value) (xs : List Value) (v : Value), v ∈ vs →
      (vs.foldl addUnlessPresent xs).any (fun e => valueEq v e) = true := by
  intro vs
  induction vs with
  | nil => intro xs v h; cases h
  | cons w rest ih =>
      intro xs v h
      cases h with
      | head => simpa [List.foldl_cons] using
          foldl_addUnlessPresent_mono rest _ _ (addUnlessPresent_self xs w)
      | tail _ hmem => simpa [List.foldl_cons] using ih _ _ hmem

theorem foldl_addUnlessPresent_id :
    ∀ (vs : List Value) (xs : List Value),
      (∀ v ∈ vs, xs.any (fun e => valueEq v e) = true) →
      vs.foldl addUnlessPresent xs = xs := by
  intro vs
  induction vs with
  | nil => intro xs _; rfl
  | cons w rest ih =>
      intro xs h
      have hw : addUnlessPresent xs w = xs := by
        unfold addUnlessPresent
        simp [h w (List.mem_cons_self w rest)]
      simp only [List.foldl_cons, hw]
      exact ih _ (fun v hv => h v (List.mem_cons_of_mem w hv))

/-- Adding the same values a second time changes nothing. -/
theorem foldl_addUnlessPresent_idem (vs : List Value) (xs : List Value) :
    vs.foldl addUnlessPresent (vs.foldl addUnlessPresent xs) =
      vs.foldl addUnlessPresent xs :=
  foldl_addUnlessPresent_id vs _ (fun v hv => foldl_addUnlessPresent_mem vs xs v hv)

/-- One-step evaluation of `$set` on a dot-free key. -/
theorem applyModifier_set_eval (sel : Value → Value → Bool) (fs : Doc) (k : String)
    (v : Value) (hk : splitDot k = [k]) :
    applyModifier sel (.obj fs) "$set" (.obj [(k, v)]) = .ok (.obj (setField fs k v)) := by
  have hclauses : clausesOf (.obj [(k, v)]) = [(k, v)] := by
    simp [clausesOf, forInKeys_single, getField]
  unfold applyModifier
  rw [hclauses]
  simp [applyModClauses, applyModClause, hk, noCreateModifier, knownModifier,
    findModTarget, dispatchMod, setMod, jsWrite, getAtPath, setAtPath]

/-- One-step evaluation of `$addToSet` on a dot-free key. -/
theorem applyModifier_addToSet_eval (sel : Value → Value → Bool) (fs : Doc) (k : String)
    (v : Value) (hk : splitDot k = [k]) :
    applyModifier sel (.obj fs) "$addToSet" (.obj [(k, v)]) =
      (match getField fs k with
       | none => .ok (.obj (setField fs k (.arr [v])))
       | some .undef => .ok (.obj (setField fs k (.arr [v])))
       | some (.arr xs) =>
          .ok (.obj (setField fs k (.arr
            ((if isEachWrapper v then eachValues (jsGetField v "$each") else [v]).foldl
              addUnlessPresent xs))))
       | some _ => .error .addToSetNonArray) := by
  have hclauses : clausesOf (.obj [(k, v)]) = [(k, v)] := by
    simp [clausesOf, forInKeys_single, getField]
  unfold applyModifier
  rw [hclauses]
  cases hg : getField fs k with
  | none =>
      simp [applyModClauses, applyModClause, hk, noCreateModifier, knownModifier,
        findModTarget, dispatchMod, addToSetMod, hg, jsGet, contGet, jsWrite,
        getAtPath, setAtPath]
  | some w =>
      cases w <;>
        simp [applyModClauses, applyModClause, hk, noCreateModifier, knownModifier,
          findModTarget, dispatchMod, addToSetMod, hg, jsGet, contGet, jsWrite,
          getAtPath, setAtPath]

/-- C8 amended: `$set:{k:v}` twice on a dot-free field equals once;
`$addToSet` of the same value twice equals once, provided the value is
not an `$each` wrapper applied to a field that does not already hold
an array (there the wrapper is stored literally and the second
application appends its elements — see the counterexample). -/
theorem C8_amended_idempotence :
    (∀ (sel : Value → Value → Bool) (fs : Doc) (k : String) (v : Value) (r : Value),
        splitDot k = [k] →
        applyModifier sel (.obj fs) "$set" (.obj [(k, v)]) = .ok r →
        applyModifier sel r "$set" (.obj [(k, v)]) = .ok r) ∧
    (∀ (sel : Value → Value → Bool) (fs : Doc) (k : String) (v : Value) (r : Value),
        splitDot k = [k] →
        (isEachWrapper v = false ∨ ∃ xs, getField fs k = some (.arr xs)) →
        applyModifier sel (.obj fs) "$addToSet" (.obj [(k, v)]) = .ok r →
        applyModifier sel r "$addToSet" (.obj [(k, v)]) = .ok r) := by
  constructor
  · intro sel fs k v r hk h1
    rw [applyModifier_set_eval sel fs k v hk] at h1
    injection h1 with h1
    subst h1
    rw [applyModifier_set_eval sel _ k v hk, setField_setField_self]
  · intro sel fs k v r hk hcase h1
    rw [applyModifier_addToSet_eval sel fs k v hk] at h1
    cases hg : getField fs k with
    | none =>
        have hew : isEachWrapper v = false := by
          rcases hcase with hew | ⟨xs, hxs⟩
          · exact hew
          · rw [hg] at hxs; cases hxs
        rw [hg] at h1
        simp only at h1
        injection h1 with h1
        subst h1
        rw [applyModifier_addToSet_eval sel _ k v hk, getField_setField_self]
        simp [hew, valueEq_refl, addUnlessPresent, setField_setField_self]
    | some w =>
        rw [hg] at h1
        cases w with
        | undef =>
            have hew : isEachWrapper v = false := by
              rcases hcase with hew | ⟨xs, hxs⟩
              · exact hew
              · rw [hg] at hxs; cases hxs
            simp only at h1
            injection h1 with h1
            subst h1
            rw [applyModifier_addToSet_eval sel _ k v hk, getField_setField_self]
            simp [hew, valueEq_refl, addUnlessPresent, setField_setField_self]
        | arr xs =>
            simp only at h1
            injection h1 with h1
            subst h1
            rw [applyModifier_addToSet_eval sel _ k v hk, getField_setField_self]
            simp [foldl_addUnlessPresent_idem, setField_setField_self]
        | null => simp at h1
        | bool b => simp at h1
        | num n => simp at h1
        | str s => simp at h1
        | oid s => simp at h1
        | obj o => simp at h1

/-- Witness for the amended C8 theorem: `$set:{a:3}` is idempotent,
and `$addToSet` of `3` on an array already holding `3` changes
nothing. -/
theorem C8_amended_witness :
    applyModifier selNone (.obj [("a", Value.num 3)]) "$set" (.obj [("a", Value.num 3)]) =
      .ok (.obj [("a", Value.num 3)]) ∧
    applyModifier selNone (.obj [("a", .arr [Value.num 3])]) "$addToSet"
        (.obj [("a", Value.num 3)]) = .ok (.obj [("a", .arr [Value.num 3])]) :=
  ⟨C8_amended_idempotence.1 selNone [] "a" (Value.num 3) (.obj [("a", Value.num 3)])
      (by decide) (by decide),
   C8_amended_idempotence.2 selNone [] "a" (Value.num 3) (.obj [("a", .arr [Value.num 3])])
      (by decide) (Or.inl (by decide)) (by decide)⟩

/-! ## C9 -/

/-- `insert` either fails with no effects, or succeeds emitting exactly
one `insert` event carrying the committed state. -/
theorem insert_effects_char (c : Collection) (d : Doc) (fid : String) (gt : Int) :
    ((Collection.insert c d fid gt).2.1 = [] ∧
      exceptFailed (Collection.insert c d fid gt).2.2 = true) ∨
    ((Collection.insert c d fid gt).2.1 =
        [Effect.emit "insert" (Collection.insert c d fid gt).1] ∧
      exceptFailed (Collection.insert c d fid gt).2.2 = false) := by
  unfold Collection.insert
  split <;> (dsimp only; split <;> simp [exceptFailed])

/-- The `find`/`findOne` events fetched inside `update` are not
mutation events. -/
theorem findEventName_not_mutation (b : Bool) :
    isMutationEventName (if b then "find" else "findOne") = false := by
  cases b <;> rfl

/-- C9: for each mutation operation (insert, update, remove), every
`insert`/`update`/`remove` event in its effect trace is emitted with
the final committed collection state, and no such event is emitted
when the operation fails.  (The non-mutation `find`/`findOne` events
that `update` and `remove` emit while fetching their targets are
outside the claim's scope.) -/
theorem C9_events_after_commit :
    (∀ (c : Collection) (d : Doc) (fid : String) (gt : Int),
        emitsCommittedB (Collection.insert c d fid gt).1 (Collection.insert c d fid gt).2.1
          (exceptFailed (Collection.insert c d fid gt).2.2) = true) ∧
    (∀ (sel : Value → Value → Bool) (c : Collection) (matcher : Doc → Bool) (upd : Doc)
        (opts : UpdateOpts) (fid : String) (gt : Int),
        emitsCommittedB (Collection.update sel c matcher upd opts fid gt).1
          (Collection.update sel c matcher upd opts fid gt).2.1
          (exceptFailed (Collection.update sel c matcher upd opts fid gt).2.2) = true) ∧
    (∀ (c : Collection) (matcher : Doc → Bool),
        emitsCommittedB (Collection.remove c matcher).1 (Collection.remove c matcher).2.1
          false = true) := by
  refine ⟨?_, ?_, ?_⟩
  · intro c d fid gt
    rcases insert_effects_char c d fid gt with ⟨he, hf⟩ | ⟨he, hf⟩ <;>
      simp [emitsCommittedB, he, hf]
  · intro sel c matcher upd opts fid gt
    unfold Collection.update
    dsimp only
    rcases hi : Collection.insert c upd fid gt with ⟨c2, effs, r⟩
    have hchar := insert_effects_char c upd fid gt
    rw [hi] at hchar
    dsimp only at hchar
    rcases hchar with ⟨he, hf⟩ | ⟨he, hf⟩ <;> subst he <;>
      (repeat' split) <;>
        simp_all [emitsCommittedB, findEventName_not_mutation, exceptFailed,
          isMutationEventName]
    all_goals
      (rename_i heq
       obtain ⟨hq1, hq2, hq3⟩ := heq
       subst hq1
       subst hq2
       simp_all [emitsCommittedB, isMutationEventName])
  · intro c matcher
    unfold Collection.remove
    simp [emitsCommittedB, isMutationEventName]

/-! ## C10 -/

/-- A successful `insert` stores every field other than `_id` and
`timestamp` unchanged — including `$`-prefixed keys, which are kept as
literal fields. -/
theorem insert_ok_fields (c : Collection) (d : Doc) (fid : String) (gt : Int) (d2 : Doc)
    (h : (Collection.insert c d fid gt).2.2 = .ok d2) :
    ∀ k, k ≠ "_id" → k ≠ "timestamp" → getField d2 k = getField d k := by
  intro k hk1 hk2
  unfold Collection.insert at h
  split at h
  · dsimp only at h
    split at h
    · cases h
    · injection h with h
      subst h
      rw [getField_setField_ne _ _ _ _ (Ne.symm hk2),
        getField_setField_ne _ _ _ _ (Ne.symm hk1),
        getField_setField_ne _ _ _ _ (Ne.symm hk1)]
  · dsimp only at h
    split at h
    · cases h
    · injection h with h
      subst h
      rw [getField_setField_ne _ _ _ _ (Ne.symm hk2),
        getField_setField_ne _ _ _ _ (Ne.symm hk1)]

/-- C10: when no document matches and `upsert` is set, the update
document itself is handed to `insert` unchanged — `$`-prefixed
operator keys are stored as literal fields, not applied — and the
result reports inserted count 1 and updated count 0. -/
theorem C10_upsert_inserts_update_doc :
    ∀ (sel : Value → Value → Bool) (c : Collection) (matcher : Doc → Bool) (upd : Doc)
      (uam ov multi : Bool) (fid : String) (gt : Int) (d2 : Doc),
      (∀ d ∈ c.docs, matcher d = false) →
      (Collection.insert c upd fid gt).2.2 = .ok d2 →
      (Collection.update sel c matcher upd ⟨uam, ov, multi, true⟩ fid gt).1 =
          (Collection.insert c upd fid gt).1 ∧
      (Collection.update sel c matcher upd ⟨uam, ov, multi, true⟩ fid gt).2.2 =
          .ok ⟨none, 0, some d2, 1⟩ ∧
      (∀ k v, getField upd k = some v → k ≠ "_id" → k ≠ "timestamp" →
        getField d2 k = some v) := by
  intro sel c matcher upd uam ov multi fid gt d2 hno hins
  have hfields : ∀ k v, getField upd k = some v → k ≠ "_id" → k ≠ "timestamp" →
      getField d2 k = some v := by
    intro k v hv hk1 hk2
    rw [insert_ok_fields c upd fid gt d2 hins k hk1 hk2]
    exact hv
  have htargets :
      (if multi then List.filter matcher c.docs
       else match c.docs.find? matcher with
            | some d => [d]
            | none => []) = [] := by
    cases multi
    · simp only [if_false, Bool.false_eq_true]
      rw [List.find?_eq_none.mpr (fun d hd => by simp [hno d hd])]
    · simp only [if_true]
      exact List.filter_eq_nil_iff.mpr (fun d hd => by simp [hno d hd])
  unfold Collection.update
  dsimp only
  rw [htargets]
  simp only [List.isEmpty_nil, if_true]
  rcases hi : Collection.insert c upd fid gt with ⟨c2, effs, r⟩
  rw [hi] at hins
  dsimp only at hins
  subst hins
  exact ⟨rfl, rfl, hfields⟩

/-- Witness for C10: upserting `{$set:{x:1}}` into an empty collection
stores the operator key literally and reports counts (0 updated,
1 inserted). -/
theorem C10_witness :
    (Collection.update selNone ⟨[], []⟩ (fun _ => false) [("$set", .obj [("x", .num 1)])]
        ⟨true, false, false, true⟩ "f" 7).1 =
      (Collection.insert ⟨[], []⟩ [("$set", .obj [("x", .num 1)])] "f" 7).1 ∧
    (Collection.update selNone ⟨[], []⟩ (fun _ => false) [("$set", .obj [("x", .num 1)])]
        ⟨true, false, false, true⟩ "f" 7).2.2 =
      .ok ⟨none, 0,
        some [("$set", Value.obj [("x", Value.num 1)]), ("_id", Value.oid "f"),
          ("timestamp", Value.num 7)], 1⟩ ∧
    (∀ k v, getField [("$set", Value.obj [("x", Value.num 1)])] k = some v → k ≠ "_id" →
      k ≠ "timestamp" →
      getField [("$set", Value.obj [("x", Value.num 1)]), ("_id", Value.oid "f"),
        ("timestamp", Value.num 7)] k = some v) :=
  C10_upsert_inserts_update_doc selNone ⟨[], []⟩ (fun _ => false)
    [("$set", .obj [("x", .num 1)])] true false false "f" 7
    [("$set", Value.obj [("x", Value.num 1)]), ("_id", Value.oid "f"),
      ("timestamp", Value.num 7)]
    (fun d hd => absurd hd (List.not_mem_nil d)) (by decide)

end MP
